import Mathlib

/-!
Shallow embedding of the Rumba serial driver (`src/device.rs`).

The driver is a type-state mode machine over a blocking byte transport.
We model bytes as `Nat` values below 256, the transport as a list of accepted
bytes together with a failure schedule (`failAt n` is the transport error, if
any, raised by the write attempted when `n` bytes have been accepted), and the
Rust panics of the transition path as an explicit `POutcome.panic` outcome.
`decompose` in the source uses `ManuallyDrop` to hand the transport to the
successor handle without running the predecessor's `Drop`; the lifecycle
interpreter below therefore threads one transport through the transitions and
runs the drop glue (`enter_off_state`) exactly once, at the end.
-/

/-- Modes of the device handle (`mod mode` in the source): phantom type tags. -/
inductive Mode where
  | off
  | passive
  | safe
  | full
deriving DecidableEq

/-- Song slots (`SongSlot`), encoded 0-3. -/
inductive SongSlot where
  | first
  | second
  | third
  | fourth
deriving DecidableEq

/-- Discriminant value of a `SongSlot` (`song as u8`). -/
def SongSlot.val : SongSlot → Nat
  | .first => 0
  | .second => 1
  | .third => 2
  | .fourth => 3

/-- `NoteDuration`: ticks of 1/64 s kept in a `u8` field. -/
structure NoteDuration where
  ticks : Nat
deriving DecidableEq

/-- `U16Ext::ms for u16`: `let ticks = (self as u64 * 64 / 1000) as u8`.
The `u64` product never overflows for a `u16` input; the final `as u8`
truncates to the low eight bits. -/
def U16Ext.ms (v : Nat) : NoteDuration :=
  ⟨v * 64 / 1000 % 256⟩

/-- `NoteOctave` discriminants. -/
inductive NoteOctave where
  | silent
  | contra
  | great
  | small
  | oneLined
  | twoLined
  | threeLined
  | fourLined
deriving DecidableEq

/-- Discriminant value of a `NoteOctave` (`octave as u8`). -/
def NoteOctave.val : NoteOctave → Nat
  | .silent => 0
  | .contra => 24
  | .great => 36
  | .small => 48
  | .oneLined => 60
  | .twoLined => 72
  | .threeLined => 84
  | .fourLined => 96

/-- `NoteName` discriminants, 0-11. -/
inductive NoteName where
  | c
  | cSharp
  | d
  | dSharp
  | e
  | f
  | fSharp
  | g
  | gSharp
  | a
  | aSharp
  | b
deriving DecidableEq

/-- Discriminant value of a `NoteName` (`name as u8`). -/
def NoteName.val : NoteName → Nat
  | .c => 0
  | .cSharp => 1
  | .d => 2
  | .dSharp => 3
  | .e => 4
  | .f => 5
  | .fSharp => 6
  | .g => 7
  | .gSharp => 8
  | .a => 9
  | .aSharp => 10
  | .b => 11

/-- `Note`: name, octave and duration. -/
structure Note where
  name : NoteName
  octave : NoteOctave
  duration : NoteDuration
deriving DecidableEq

/-- `Note::midi_value`: `self.name as u8 + self.octave as u8`, a `u8` addition
(hence reduced mod 256 in the embedding). -/
def Note.midi_value (n : Note) : Nat :=
  (n.name.val + n.octave.val) % 256

/-- `Note::duration`: the stored tick byte. -/
def Note.durationByte (n : Note) : Nat :=
  n.duration.ticks

/-- The byte transport consumed by the driver: the bytes accepted so far, in
order, and a failure schedule. `failAt n = some e` means the write attempted
when `n` bytes have been accepted fails with transport error `e`. -/
structure Transport where
  written : List Nat
  failAt : Nat → Option Nat

/-- One blocking single-byte write (`nb::block!(io_port.write(b))`): either the
transport accepts the byte or it reports an error and accepts nothing. -/
def txPutByte (t : Transport) (b : Nat) : Except Nat Transport :=
  match t.failAt t.written.length with
  | some e => .error e
  | none => .ok ⟨t.written ++ [b], t.failAt⟩

/-- `Rumba::write`: send a buffer one byte at a time, stopping at the first
transport error and returning it; earlier bytes stay written. -/
def Rumba.write (t : Transport) : List Nat → Transport × Option Nat
  | [] => (t, none)
  | b :: rest =>
    match txPutByte t b with
    | .error e => (t, some e)
    | .ok t' => Rumba.write t' rest

/-- Outcome of an operation on the mandatory transition path: it either
returns the updated transport or panics (the Rust `panic!` aborts). -/
inductive POutcome where
  | ok (t : Transport)
  | panic (msg : String)
deriving Inhabited

/-- `enter_off_state`: write the shutdown opcode 173, panic on failure. -/
def enter_off_state (t : Transport) : POutcome :=
  match Rumba.write t [173] with
  | (_, some _) => .panic ("Error entering the off state failed!")
  | (t', none) => .ok t'

/-- `enter_passive_state`: write the start opcode 128, panic on failure. -/
def enter_passive_state (t : Transport) : POutcome :=
  match Rumba.write t [128] with
  | (_, some _) => .panic ("Error entering the passive state failed!")
  | (t', none) => .ok t'

/-- `Rumba<T, Off>::into_passive` (transport effect). -/
def Off.into_passive (t : Transport) : POutcome :=
  enter_passive_state t

/-- `Rumba<T, Passive>::into_off` (transport effect). -/
def Passive.into_off (t : Transport) : POutcome :=
  enter_off_state t

/-- `Rumba<T, Passive>::into_safe`: write 131, panic on failure. -/
def Passive.into_safe (t : Transport) : POutcome :=
  match Rumba.write t [131] with
  | (_, some _) => .panic ("Error entering the off state failed!")
  | (t', none) => .ok t'

/-- `Rumba<T, Safe>::into_off` (transport effect). -/
def Safe.into_off (t : Transport) : POutcome :=
  enter_off_state t

/-- `Rumba<T, Safe>::into_passive` (transport effect). -/
def Safe.into_passive (t : Transport) : POutcome :=
  enter_passive_state t

/-- `impl Drop for Rumba`: the drop glue calls `enter_off_state`. -/
def Rumba.dropHandle (t : Transport) : POutcome :=
  enter_off_state t

/-- A checked array store: `buffer[i] = v` in Rust panics (`none`) when the
index is out of bounds. -/
def setChecked (buf : List Nat) (i v : Nat) : Option (List Nat) :=
  if i < buf.length then some (buf.set i v) else none

/-- The note loop of `send_song`: for each note, store its pitch at offset
`3 + index * 2` and its tick byte at `4 + index * 2` in the 35-byte buffer. -/
def fillNotes : List Nat → List Note → Nat → Option (List Nat)
  | buf, [], _ => some buf
  | buf, n :: rest, index =>
    match setChecked buf (3 + index * 2) n.midi_value with
    | none => none
    | some b1 =>
      match setChecked b1 (4 + index * 2) n.durationByte with
      | none => none
      | some b2 => fillNotes b2 rest (index + 1)

/-- A checked slice `&buffer[..k]`: panics (`none`) when `k` exceeds the
buffer length. -/
def sliceUpTo (buf : List Nat) (k : Nat) : Option (List Nat) :=
  if k ≤ buf.length then some (buf.take k) else none

/-- The buffer construction of `Rumba::send_song`: a `[0; 35]` buffer, header
bytes 140, slot, `notes.len() as u8`, the note loop, then the slice
`&buffer[..3 + 2 * notes.len()]`. `none` models an index panic. -/
def encodeSong (song : SongSlot) (notes : List Note) : Option (List Nat) :=
  match setChecked (List.replicate 35 0) 0 140 with
  | none => none
  | some b0 =>
    match setChecked b0 1 song.val with
    | none => none
    | some b1 =>
      match setChecked b1 2 (notes.length % 256) with
      | none => none
      | some b2 =>
        match fillNotes b2 notes 0 with
        | none => none
        | some b3 => sliceUpTo b3 (3 + 2 * notes.length)

/-- `Rumba<T, Passive>::send_song`: encode, then write the slice; a transport
error is propagated to the caller, an index panic is `none`. -/
def Rumba.send_song (t : Transport) (song : SongSlot) (notes : List Note) :
    Option (Transport × Option Nat) :=
  (encodeSong song notes).map (fun buf => Rumba.write t buf)

/-- `Rumba<T, Passive>::clean`: write `[135]`, propagating errors. -/
def Rumba.clean (t : Transport) : Transport × Option Nat :=
  Rumba.write t [135]

/-- `Rumba<T, Passive>::max_clean`: write `[136]`, propagating errors. -/
def Rumba.max_clean (t : Transport) : Transport × Option Nat :=
  Rumba.write t [136]

/-- `Rumba<T, Safe>::play_song`: write `[141, song as u8]`, propagating
errors. -/
def Rumba.play_song (t : Transport) (song : SongSlot) : Transport × Option Nat :=
  Rumba.write t [141, song.val]

/-- Host-triggered transition requests. -/
inductive HostOp where
  | intoPassive
  | intoSafe
  | intoOff
deriving DecidableEq

/-- The legal transitions: exactly the `into_*` methods each mode's `impl`
block provides. A request outside this table is a compile-time error in the
source, so it has no runtime behaviour (`none`). -/
def step (m : Mode) (op : HostOp) (t : Transport) : Option (Mode × POutcome) :=
  match m, op with
  | .off, .intoPassive => some (.passive, Off.into_passive t)
  | .passive, .intoOff => some (.off, Passive.into_off t)
  | .passive, .intoSafe => some (.safe, Passive.into_safe t)
  | .safe, .intoOff => some (.off, Safe.into_off t)
  | .safe, .intoPassive => some (.passive, Safe.into_passive t)
  | _, _ => none

/-- Run a sequence of transitions, threading the one transport through the
successive handles (`decompose` moves it without running drop). `none` when a
request is illegal or a transition panics. -/
def run : Mode → List HostOp → Transport → Option (Mode × Transport)
  | m, [], t => some (m, t)
  | m, op :: rest, t =>
    match step m op t with
    | some (m', .ok t') => run m' rest t'
    | _ => none

/-- A whole handle-chain lifecycle: construction in `Off`, the requested
transitions, then the final handle's drop glue. -/
def lifecycle (ops : List HostOp) (t : Transport) : Option Transport :=
  match run .off ops t with
  | some (_, t') =>
    match Rumba.dropHandle t' with
    | .ok t'' => some t''
    | .panic _ => none
  | none => none

/-- The state diagram of spec section 4.1. -/
def diagramNext : Mode → HostOp → Option Mode
  | .off, .intoPassive => some .passive
  | .passive, .intoOff => some .off
  | .passive, .intoSafe => some .safe
  | .safe, .intoOff => some .off
  | .safe, .intoPassive => some .passive
  | _, _ => none

/-- Mode reached by following the diagram along a request sequence. -/
def pathMode : Mode → List HostOp → Option Mode
  | m, [] => some m
  | m, op :: rest =>
    match diagramNext m op with
    | some m' => pathMode m' rest
    | none => none

/-- Per-transition opcode named by the spec: 0x80 enters Passive, 0x83 enters
Safe, 0xAD enters Off. -/
def specOpcode : HostOp → Nat
  | .intoPassive => 128
  | .intoSafe => 131
  | .intoOff => 173

/-- Wire bytes of a note list as the spec describes them: pitch byte then
duration byte, per note in order. -/
def notesBytes : List Note → List Nat
  | [] => []
  | n :: rest => n.midi_value :: n.durationByte :: notesBytes rest

/-- Song-definition bytes as the spec describes them:
`[0x8C, slot, count, pitch1, dur1, ...]`. -/
def specSongBytes (song : SongSlot) (notes : List Note) : List Nat :=
  140 :: song.val :: notes.length :: notesBytes notes

/-- A transport whose schedule never fails. -/
def reliable (t : Transport) : Prop :=
  ∀ n, t.failAt n = none

theorem write_ok : ∀ (buf : List Nat) (t : Transport), reliable t →
    Rumba.write t buf = (⟨t.written ++ buf, t.failAt⟩, none)
  | [], t, _ => by cases t; simp [Rumba.write]
  | b :: rest, t, hrel => by
    have h1 : txPutByte t b = .ok ⟨t.written ++ [b], t.failAt⟩ := by
      simp [txPutByte, hrel t.written.length]
    have h2 := write_ok rest ⟨t.written ++ [b], t.failAt⟩ hrel
    simp [Rumba.write, h1, h2]

theorem write_fail_head (t : Transport) (b : Nat) (rest : List Nat) (e : Nat)
    (h : t.failAt t.written.length = some e) :
    Rumba.write t (b :: rest) = (t, some e) := by
  simp [Rumba.write, txPutByte, h]

theorem enter_passive_state_ok (t : Transport) (hrel : reliable t) :
    enter_passive_state t = .ok ⟨t.written ++ [128], t.failAt⟩ := by
  simp [enter_passive_state, write_ok _ t hrel]

theorem enter_off_state_ok (t : Transport) (hrel : reliable t) :
    enter_off_state t = .ok ⟨t.written ++ [173], t.failAt⟩ := by
  simp [enter_off_state, write_ok _ t hrel]

theorem into_safe_ok (t : Transport) (hrel : reliable t) :
    Passive.into_safe t = .ok ⟨t.written ++ [131], t.failAt⟩ := by
  simp [Passive.into_safe, write_ok _ t hrel]

theorem run_trace : ∀ (ops : List HostOp) (m m' : Mode) (t : Transport),
    reliable t → pathMode m ops = some m' →
    run m ops t = some (m', ⟨t.written ++ ops.map specOpcode, t.failAt⟩)
  | [], m, m', t, _, hpath => by
    cases t
    simp [pathMode] at hpath
    simp [run, hpath]
  | op :: rest, m, m', t, hrel, hpath => by
    have hrel' : ∀ w : List Nat, reliable (⟨w, t.failAt⟩ : Transport) := fun w n => hrel n
    cases m <;> cases op <;>
      simp [pathMode, diagramNext] at hpath <;>
      simp [run, step, Off.into_passive, Safe.into_passive, Passive.into_off, Safe.into_off,
        enter_passive_state_ok t hrel, enter_off_state_ok t hrel, into_safe_ok t hrel,
        run_trace rest _ m' ⟨t.written ++ [_], t.failAt⟩ (hrel' _) hpath, specOpcode]

theorem setChecked_some (buf : List Nat) (i v : Nat) (h : i < buf.length) :
    setChecked buf i v = some (buf.set i v) := by
  simp [setChecked, h]

theorem notesBytes_length (notes : List Note) :
    (notesBytes notes).length = notes.length * 2 := by
  induction notes with
  | nil => simp [notesBytes]
  | cons n rest ih => simp only [notesBytes, List.length_cons, ih]; omega

theorem fillNotes_split : ∀ (notes : List Note) (idx : Nat) (pre suf : List Nat),
    pre.length = 3 + idx * 2 → notes.length * 2 ≤ suf.length →
    fillNotes (pre ++ suf) notes idx =
      some (pre ++ notesBytes notes ++ suf.drop (notes.length * 2))
  | [], idx, pre, suf, hpre, hsuf => by simp [fillNotes, notesBytes]
  | n :: rest, idx, pre, suf, hpre, hsuf => by
    rcases suf with _ | ⟨s0, suf1⟩
    · simp at hsuf
    rcases suf1 with _ | ⟨s1, suf'⟩
    · simp at hsuf; omega
    have hb1 : setChecked (pre ++ s0 :: s1 :: suf') (3 + idx * 2) n.midi_value
        = some (pre ++ n.midi_value :: s1 :: suf') := by
      rw [setChecked_some _ _ _
        (by simp only [List.length_append, List.length_cons, hpre]; omega)]
      rw [← hpre, List.set_append_right _ _ (Nat.le_refl _)]
      simp
    have hb2 : setChecked (pre ++ n.midi_value :: s1 :: suf') (4 + idx * 2) n.durationByte
        = some (pre ++ n.midi_value :: n.durationByte :: suf') := by
      rw [setChecked_some _ _ _
        (by simp only [List.length_append, List.length_cons, hpre]; omega)]
      rw [List.set_append_right _ _ (by omega)]
      have h1 : 4 + idx * 2 - pre.length = 1 := by omega
      rw [h1]
      simp
    have ih := fillNotes_split rest (idx + 1) (pre ++ [n.midi_value, n.durationByte]) suf'
      (by simp only [List.length_append, List.length_cons, List.length_nil, hpre]; omega)
      (by simp only [List.length_cons] at hsuf; omega)
    have hassoc : (pre ++ [n.midi_value, n.durationByte]) ++ suf'
        = pre ++ n.midi_value :: n.durationByte :: suf' := by simp
    rw [hassoc] at ih
    have hdrop : (s0 :: s1 :: suf').drop ((n :: rest).length * 2)
        = suf'.drop (rest.length * 2) := by
      have h2 : (n :: rest).length * 2 = rest.length * 2 + 1 + 1 := by
        simp only [List.length_cons]; omega
      rw [h2]
      simp
    calc fillNotes (pre ++ s0 :: s1 :: suf') (n :: rest) idx
        = fillNotes (pre ++ n.midi_value :: n.durationByte :: suf') rest (idx + 1) := by
          simp [fillNotes, hb1, hb2]
      _ = some (pre ++ notesBytes (n :: rest) ++
            (s0 :: s1 :: suf').drop ((n :: rest).length * 2)) := by
          rw [ih, hdrop]
          simp [notesBytes]

theorem take_len_append (l₁ l₂ : List Nat) (k : Nat) (h : k = l₁.length) :
    (l₁ ++ l₂).take k = l₁ := by
  subst h
  rw [List.take_append_of_le_length (Nat.le_refl _)]
  simp

theorem encodeSong_eq (song : SongSlot) (notes : List Note) (hlen : notes.length ≤ 16) :
    encodeSong song notes = some (specSongBytes song notes) := by
  have hmod : notes.length % 256 = notes.length := Nat.mod_eq_of_lt (by omega)
  have hrep : List.replicate 35 (0 : Nat) = [0, 0, 0] ++ List.replicate 32 (0 : Nat) := rfl
  have hbuf : (((List.replicate 35 (0 : Nat)).set 0 140).set 1 song.val).set 2
        (notes.length % 256)
      = [140, song.val, notes.length] ++ List.replicate 32 0 := by
    rw [hrep, hmod]
    simp
  have hfill := fillNotes_split notes 0 [140, song.val, notes.length] (List.replicate 32 0)
    (by simp) (by simp only [List.length_replicate]; omega)
  simp only [encodeSong, setChecked, List.length_replicate, List.length_set]
  norm_num
  rw [hbuf, hfill]
  simp only [sliceUpTo]
  rw [if_pos (by
    simp only [List.length_append, List.length_cons, List.length_nil, List.length_drop,
      List.length_replicate, notesBytes_length]
    omega)]
  rw [take_len_append _ _ _ (by
    simp only [List.length_append, List.length_cons, List.length_nil, notesBytes_length]
    omega)]
  simp [specSongBytes]

theorem fillNotes_overflow : ∀ (notes : List Note) (idx : Nat) (buf : List Nat),
    buf.length = 35 → notes ≠ [] → 17 ≤ idx + notes.length →
    fillNotes buf notes idx = none
  | [], _, _, _, hne, _ => absurd rfl hne
  | n :: rest, idx, buf, hlen, _, hge => by
    simp only [List.length_cons] at hge
    rcases Nat.lt_or_ge idx 16 with hidx | hidx
    · have h1 : 3 + idx * 2 < buf.length := by omega
      have h2 : 4 + idx * 2 < (buf.set (3 + idx * 2) n.midi_value).length := by
        rw [List.length_set]; omega
      have hne' : rest ≠ [] := by
        intro hnil
        rw [hnil] at hge
        simp at hge
        omega
      have hrec := fillNotes_overflow rest (idx + 1)
        ((buf.set (3 + idx * 2) n.midi_value).set (4 + idx * 2) n.durationByte)
        (by simp [hlen]) hne' (by omega)
      simp [fillNotes, setChecked_some _ _ _ h1, setChecked_some _ _ _ h2, hrec]
    · have h1 : ¬ 3 + idx * 2 < buf.length := by omega
      simp [fillNotes, setChecked, h1]

theorem encodeSong_overflow (song : SongSlot) (notes : List Note) (h : 16 < notes.length) :
    encodeSong song notes = none := by
  have hne : notes ≠ [] := by
    intro hnil
    rw [hnil] at h
    simp at h
  have hfill := fillNotes_overflow notes 0
    ((((List.replicate 35 (0 : Nat)).set 0 140).set 1 song.val).set 2 (notes.length % 256))
    (by simp) hne (by omega)
  simp only [encodeSong, setChecked, List.length_replicate, List.length_set]
  norm_num
  rw [hfill]

theorem count_shutdown_map (ops : List HostOp) :
    (ops.map specOpcode).count 173 = ops.count .intoOff := by
  induction ops with
  | nil => simp
  | cons op rest ih => cases op <;> simp [specOpcode, List.count_cons, ih]

/-- Claim C1: for every transition sequence allowed by the state diagram
(starting in Off, where construction puts the handle), running the driver
writes exactly the concatenation of the per-transition opcodes, in order,
with no extra bytes: 0x80 entering Passive, 0x83 entering Safe, 0xAD
entering Off. -/
theorem run_writes_opcodes (ops : List HostOp) (m' : Mode) (t : Transport)
    (hrel : reliable t) (hpath : pathMode .off ops = some m') :
    run .off ops t = some (m', ⟨t.written ++ ops.map specOpcode, t.failAt⟩) :=
  run_trace ops .off m' t hrel hpath

/-- Witness for C1: Off→Passive→Safe→Passive writes `[0x80, 0x83, 0x80]`,
with no shutdown byte among them. -/
theorem run_writes_opcodes_witness :
    run .off [.intoPassive, .intoSafe, .intoPassive] ⟨[], fun _ => none⟩ =
      some (.passive, ⟨[128, 131, 128], fun _ => none⟩) ∧
    ¬ 173 ∈ ([128, 131, 128] : List Nat) := by
  have h := run_writes_opcodes [.intoPassive, .intoSafe, .intoPassive] .passive
    ⟨[], fun _ => none⟩ (fun n => rfl) rfl
  exact ⟨by simpa using h, by decide⟩

/-- Counterexample to C2 as stated: the lifecycle that transitions
Off→Passive→Off and then drops the (Off-mode) handle writes the shutdown
byte 0xAD twice — once for the explicit `into_off` transition and once in
the drop glue — so "never more than one 0xAD per transport lifetime" fails. -/
theorem lifecycle_double_shutdown_cex :
    lifecycle [.intoPassive, .intoOff] ⟨[], fun _ => none⟩ =
      some ⟨[128, 173, 173], fun _ => none⟩ ∧
    ([128, 173, 173] : List Nat).count 173 = 2 := by
  exact ⟨rfl, by decide⟩

/-- Claim C2 (amended): over a whole handle-chain lifecycle the drop-time
shutdown runs exactly once — a transition disarms the handle it consumes —
so the transport sees exactly one drop-emitted 0xAD; the total number of
0xAD bytes is one plus the number of explicit `into_off` transitions, hence
exactly one for every lifecycle containing no explicit `into_off` (in
particular a handle dropped with no prior transition writes exactly
`[0xAD]`). -/
theorem lifecycle_shutdown_count (ops : List HostOp) (m' : Mode) (t : Transport)
    (hrel : reliable t) (hpath : pathMode .off ops = some m') :
    lifecycle ops t = some ⟨t.written ++ ops.map specOpcode ++ [173], t.failAt⟩ ∧
    (t.written ++ ops.map specOpcode ++ [173]).count 173 =
      t.written.count 173 + ops.count .intoOff + 1 := by
  constructor
  · simp [lifecycle, run_trace ops .off m' t hrel hpath, Rumba.dropHandle,
      enter_off_state_ok (⟨t.written ++ ops.map specOpcode, t.failAt⟩ : Transport)
        (fun n => hrel n)]
  · simp [List.count_append, count_shutdown_map]
    omega

/-- Witness for C2 (amended): a handle constructed and dropped with no
transition writes exactly `[0xAD]`, one shutdown byte. -/
theorem lifecycle_shutdown_count_witness :
    lifecycle [] ⟨[], fun _ => none⟩ = some ⟨[173], fun _ => none⟩ ∧
    ([173] : List Nat).count 173 = 1 := by
  have h := lifecycle_shutdown_count [] .off ⟨[], fun _ => none⟩ (fun n => rfl) rfl
  exact ⟨by simpa using h.1, by decide⟩

/-- Claim C3: for at most 16 notes and a transport that accepts every byte,
`send_song` writes exactly `[0x8C, slot, count, pitch1, dur1, ...]`. -/
theorem send_song_bytes (t : Transport) (song : SongSlot) (notes : List Note)
    (hrel : reliable t) (hlen : notes.length ≤ 16) :
    Rumba.send_song t song notes =
      some (⟨t.written ++ specSongBytes song notes, t.failAt⟩, none) := by
  simp [Rumba.send_song, encodeSong_eq song notes hlen, write_ok _ t hrel]

/-- Witness for C3: slot First with notes (D, three-lined, 1000 ms) and
(D, two-lined, 1000 ms) produces `[0x8C, 0x00, 0x02, 86, 64, 74, 64]`. -/
theorem send_song_bytes_witness :
    Rumba.send_song ⟨[], fun _ => none⟩ .first
      [⟨.d, .threeLined, U16Ext.ms 1000⟩, ⟨.d, .twoLined, U16Ext.ms 1000⟩] =
      some (⟨[140, 0, 2, 86, 64, 74, 64], fun _ => none⟩, none) := by
  have h := send_song_bytes ⟨[], fun _ => none⟩ .first
    [⟨.d, .threeLined, U16Ext.ms 1000⟩, ⟨.d, .twoLined, U16Ext.ms 1000⟩]
    (fun n => rfl) (by decide)
  simpa [specSongBytes, notesBytes, Note.midi_value, Note.durationByte, U16Ext.ms,
    NoteName.val, NoteOctave.val, SongSlot.val] using h

/-- Claim C4: for a `u16` input the duration conversion stores
`floor(ms * 64 / 1000) mod 256` ticks, which equals the exact floor whenever
that floor is at most 255; larger tick counts wrap modulo 256 (truncation,
not saturation or rejection). -/
theorem ms_conversion (v : Nat) (_hv : v < 65536) :
    (U16Ext.ms v).ticks = v * 64 / 1000 % 256 ∧
    (v * 64 / 1000 ≤ 255 → (U16Ext.ms v).ticks = v * 64 / 1000) := by
  refine ⟨rfl, fun h => ?_⟩
  simp only [U16Ext.ms]
  exact Nat.mod_eq_of_lt (by omega)

/-- Witness for C4: 16 ms yields 1 tick, 0 ms yields 0 ticks, and 4096 ms
(computed tick count 262 > 255) wraps to 6 rather than saturating at 255. -/
theorem ms_conversion_witness :
    (U16Ext.ms 16).ticks = 1 ∧ (U16Ext.ms 0).ticks = 0 ∧ (U16Ext.ms 4096).ticks = 6 := by
  refine ⟨?_, ?_, ?_⟩
  · have h := (ms_conversion 16 (by omega)).2 (by norm_num)
    norm_num at h
    exact h
  · have h := (ms_conversion 0 (by omega)).2 (by norm_num)
    norm_num at h
    exact h
  · have h := (ms_conversion 4096 (by omega)).1
    norm_num at h
    exact h

/-- Counterexample to C5 as stated: the adjacent octave variants Silent and
Contra encode as 0 and 24, a gap of 24, not 12. -/
theorem octave_base_gap_cex :
    NoteOctave.silent.val = 0 ∧ NoteOctave.contra.val = 24 ∧
    ¬ NoteOctave.contra.val = NoteOctave.silent.val + 12 := by
  decide

/-- Claim C5 (amended): the eight bands are the sentinel Silent = 0 followed
by seven pitched octaves whose bases rise by exactly 12 from Contra = 24 up
to FourLined = 96; the step from Silent to the first pitched octave is 24. -/
theorem octave_bases :
    NoteOctave.silent.val = 0 ∧
    NoteOctave.contra.val = NoteOctave.silent.val + 24 ∧
    NoteOctave.great.val = NoteOctave.contra.val + 12 ∧
    NoteOctave.small.val = NoteOctave.great.val + 12 ∧
    NoteOctave.oneLined.val = NoteOctave.small.val + 12 ∧
    NoteOctave.twoLined.val = NoteOctave.oneLined.val + 12 ∧
    NoteOctave.threeLined.val = NoteOctave.twoLined.val + 12 ∧
    NoteOctave.fourLined.val = NoteOctave.threeLined.val + 12 ∧
    NoteOctave.fourLined.val = 96 := by
  decide

/-- Claim C6: when the transport rejects the next byte, every mode-transition
operation (`into_passive` from Off or Safe, `into_safe`, `into_off` from
Passive or Safe, and the drop-time shutdown) panics and never returns an
error value, while `clean`, `max_clean`, `play_song` and `send_song` return
the transport error to the caller as a recoverable result. -/
theorem failure_policy (t : Transport) (e : Nat) (song : SongSlot) (notes : List Note)
    (hfail : t.failAt t.written.length = some e) (hlen : notes.length ≤ 16) :
    Off.into_passive t = .panic ("Error entering the passive state failed!") ∧
    Safe.into_passive t = .panic ("Error entering the passive state failed!") ∧
    Passive.into_safe t = .panic ("Error entering the off state failed!") ∧
    Passive.into_off t = .panic ("Error entering the off state failed!") ∧
    Safe.into_off t = .panic ("Error entering the off state failed!") ∧
    Rumba.dropHandle t = .panic ("Error entering the off state failed!") ∧
    Rumba.clean t = (t, some e) ∧
    Rumba.max_clean t = (t, some e) ∧
    Rumba.play_song t song = (t, some e) ∧
    Rumba.send_song t song notes = some (t, some e) := by
  have hw : ∀ b rest, Rumba.write t (b :: rest) = (t, some e) := fun b rest =>
    write_fail_head t b rest e hfail
  refine ⟨?_, ?_, ?_, ?_, ?_, ?_, ?_, ?_, ?_, ?_⟩ <;>
    simp [Off.into_passive, Safe.into_passive, Passive.into_safe, Passive.into_off,
      Safe.into_off, Rumba.dropHandle, enter_passive_state, enter_off_state,
      Rumba.clean, Rumba.max_clean, Rumba.play_song, Rumba.send_song,
      encodeSong_eq song notes hlen, specSongBytes, hw]

/-- Witness for C6: on a transport that rejects its first byte, `clean`
returns the transport error while the drop-time shutdown panics. -/
theorem failure_policy_witness :
    Rumba.clean ⟨[], fun _ => some 7⟩ = (⟨[], fun _ => some 7⟩, some 7) ∧
    Rumba.dropHandle ⟨[], fun _ => some 7⟩ =
      .panic ("Error entering the off state failed!") ∧
    Rumba.play_song ⟨[], fun _ => some 7⟩ .first = (⟨[], fun _ => some 7⟩, some 7) := by
  have h := failure_policy ⟨[], fun _ => some 7⟩ 7 .first [] rfl (by decide)
  exact ⟨h.2.2.2.2.2.2.1, h.2.2.2.2.2.1, h.2.2.2.2.2.2.2.2.1⟩

theorem write_ok_local : ∀ (buf : List Nat) (t : Transport),
    (∀ i, i < buf.length → t.failAt (t.written.length + i) = none) →
    Rumba.write t buf = (⟨t.written ++ buf, t.failAt⟩, none)
  | [], t, _ => by cases t; simp [Rumba.write]
  | b :: rest, t, h => by
    have h0 : t.failAt t.written.length = none := by
      have hh := h 0 (by simp)
      simpa using hh
    have hrec := write_ok_local rest ⟨t.written ++ [b], t.failAt⟩ (by
      intro i hi
      show t.failAt ((t.written ++ [b]).length + i) = none
      have heq : (t.written ++ [b]).length + i = t.written.length + (i + 1) := by
        simp only [List.length_append, List.length_cons, List.length_nil]
        omega
      rw [heq]
      exact h (i + 1) (by simp only [List.length_cons]; omega))
    simp [Rumba.write, txPutByte, h0, hrec]

theorem write_fail_local : ∀ (buf : List Nat) (t : Transport) (k e : Nat),
    k < buf.length → t.failAt (t.written.length + k) = some e →
    (∀ i, i < k → t.failAt (t.written.length + i) = none) →
    Rumba.write t buf = (⟨t.written ++ buf.take k, t.failAt⟩, some e)
  | [], _, k, _, hk, _, _ => by simp at hk
  | b :: rest, t, 0, e, _, hfail, _ => by
    cases t with
    | mk w f =>
      have h0 : f w.length = some e := by simpa using hfail
      simp only [Rumba.write, txPutByte]
      simp [h0]
  | b :: rest, t, k + 1, e, hk, hfail, hpre => by
    have h0 : t.failAt t.written.length = none := by
      have hh := hpre 0 (by omega)
      simpa using hh
    have hrec := write_fail_local rest ⟨t.written ++ [b], t.failAt⟩ k e
      (by simp only [List.length_cons] at hk; omega)
      (by
        show t.failAt ((t.written ++ [b]).length + k) = some e
        have heq : (t.written ++ [b]).length + k = t.written.length + (k + 1) := by
          simp only [List.length_append, List.length_cons, List.length_nil]
          omega
        rw [heq]
        exact hfail)
      (by
        intro i hi
        show t.failAt ((t.written ++ [b]).length + i) = none
        have heq : (t.written ++ [b]).length + i = t.written.length + (i + 1) := by
          simp only [List.length_append, List.length_cons, List.length_nil]
          omega
        rw [heq]
        exact hpre (i + 1) (by omega))
    simp [Rumba.write, txPutByte, h0, hrec]

/-- Claim C7: the write primitive sends the buffer byte-by-byte in order; if
no position fails, every byte is written in order with nothing else; if the
transport first fails at byte position k, exactly the bytes before k are
written, the error from byte k is returned, and the rest of the buffer is
discarded. -/
theorem write_spec (t : Transport) (buf : List Nat) :
    ((∀ i, i < buf.length → t.failAt (t.written.length + i) = none) →
      Rumba.write t buf = (⟨t.written ++ buf, t.failAt⟩, none)) ∧
    (∀ k e, k < buf.length → t.failAt (t.written.length + k) = some e →
      (∀ i, i < k → t.failAt (t.written.length + i) = none) →
      Rumba.write t buf = (⟨t.written ++ buf.take k, t.failAt⟩, some e)) :=
  ⟨fun h => write_ok_local buf t h,
   fun k e hk hfail hpre => write_fail_local buf t k e hk hfail hpre⟩

/-- Witness for C7: on a transport failing at position 2 with error 5, writing
`[10, 20, 30, 40]` writes exactly `[10, 20]` and returns error 5. -/
theorem write_spec_witness :
    Rumba.write ⟨[], fun n => if n = 2 then some 5 else none⟩ [10, 20, 30, 40] =
      (⟨[10, 20], fun n => if n = 2 then some 5 else none⟩, some 5) := by
  have h := (write_spec ⟨[], fun n => if n = 2 then some 5 else none⟩ [10, 20, 30, 40]).2
    2 5 (by decide) (by decide)
    (by
      intro i hi
      interval_cases i <;> decide)
  simpa using h

/-- Claim C8: with a transport that accepts every byte, `clean` writes exactly
the single byte 0x87, `max_clean` exactly 0x88, and `play_song` exactly the
two bytes `[0x8D, slot]`. -/
theorem fixed_commands_bytes (t : Transport) (song : SongSlot) (hrel : reliable t) :
    Rumba.clean t = (⟨t.written ++ [135], t.failAt⟩, none) ∧
    Rumba.max_clean t = (⟨t.written ++ [136], t.failAt⟩, none) ∧
    Rumba.play_song t song = (⟨t.written ++ [141, song.val], t.failAt⟩, none) :=
  ⟨write_ok _ t hrel, write_ok _ t hrel, write_ok _ t hrel⟩

/-- Witness for C8: on a fresh reliable transport, `clean` writes `[0x87]`,
`max_clean` writes `[0x88]`, and `play_song` with slot First writes
`[0x8D, 0x00]`. -/
theorem fixed_commands_bytes_witness :
    Rumba.clean ⟨[], fun _ => none⟩ = (⟨[135], fun _ => none⟩, none) ∧
    Rumba.max_clean ⟨[], fun _ => none⟩ = (⟨[136], fun _ => none⟩, none) ∧
    Rumba.play_song ⟨[], fun _ => none⟩ .first = (⟨[141, 0], fun _ => none⟩, none) := by
  have h := fixed_commands_bytes ⟨[], fun _ => none⟩ .first (fun n => rfl)
  exact ⟨by simpa using h.1, by simpa using h.2.1,
    by simpa [SongSlot.val] using h.2.2⟩

/-- Claim C9: for every note name and octave the sum of discriminants is at
most 107, so the `u8` addition in `midi_value` never wraps and the pitch
always fits in one byte. -/
theorem midi_value_bounds (name : NoteName) (octave : NoteOctave) :
    name.val + octave.val ≤ 107 ∧
    ∀ d : NoteDuration, (Note.mk name octave d).midi_value = name.val + octave.val := by
  have hb : name.val + octave.val ≤ 107 := by
    cases name <;> cases octave <;> decide
  refine ⟨hb, fun d => ?_⟩
  simp only [Note.midi_value]
  exact Nat.mod_eq_of_lt (by omega)

/-- Claim C10: a slice of more than 16 notes makes `send_song` panic with an
out-of-bounds store on the fixed 35-byte buffer (the note loop writes offset
`3 + 2 * 16 = 35`), rather than returning an error or truncating: the 16-note
limit is never checked before encoding. -/
theorem send_song_overflow_panics (t : Transport) (song : SongSlot) (notes : List Note)
    (hlen : 16 < notes.length) :
    Rumba.send_song t song notes = none := by
  simp [Rumba.send_song, encodeSong_overflow song notes hlen]

/-- Witness for C10: 17 copies of the same note make `send_song` panic (no
error value, no truncated song). -/
theorem send_song_overflow_panics_witness :
    Rumba.send_song ⟨[], fun _ => none⟩ .first
      (List.replicate 17 ⟨.c, .silent, ⟨0⟩⟩) = none := by
  apply send_song_overflow_panics
  simp
